import Mathlib

/-! # ebpf-tunnel: port-to-process resolution and original-destination recovery

A shallow embedding of `go-rerouter/pid_finder.go` and `go-tunnel/tunnel.go`.

Go strings are byte sequences, so a string is a list of byte values
(naturals below 256).  The operating system is an explicit snapshot: the lines
of `/proc/net/tcp` as `bufio.Scanner` yields them, and the `/proc` directory
listing with each process's descriptor links.  Runtime panics (index or slice
bound out of range) are an explicit outcome.
-/

namespace EbpfTunnel

/-! ## Strings and the library functions the program calls -/

/-- A Go string: its bytes in order. -/
abbrev GoString := List Nat

/-- The bytes of an ASCII literal. -/
def ascii (s : String) : GoString := s.toList.map Char.toNat

/-- Decimal digits of a natural number, most significant first; the first
argument bounds the number of digits produced. -/
def utoaAux : Nat → Nat → GoString
  | 0, _ => []
  | fuel + 1, n => if n < 10 then [48 + n] else utoaAux fuel (n / 10) ++ [48 + n % 10]

/-- Decimal rendering of an unsigned value, as `%d` prints it. -/
def utoa (n : Nat) : GoString := utoaAux (n + 1) n

/-- Decimal rendering of a signed value, as `%d` prints it. -/
def itoa (i : Int) : GoString :=
  if i < 0 then 45 :: utoa i.natAbs else utoa i.natAbs

/-- Go's `strings.HasPrefix`. -/
def hasPrefix (s pre : GoString) : Bool := pre.isPrefixOf s

/-- Go's `strings.HasSuffix`. -/
def hasSuffix (s suf : GoString) : Bool := suf.isSuffixOf s

/-- Go's `strings.TrimPrefix`: drop `pre` once when `s` starts with it. -/
def trimPrefix (s pre : GoString) : GoString :=
  if hasPrefix s pre then s.drop pre.length else s

/-- Go's `strings.TrimSuffix`: drop `suf` once when `s` ends with it. -/
def trimSuffix (s suf : GoString) : GoString :=
  if hasSuffix s suf then s.take (s.length - suf.length) else s

/-- Go's `strings.Contains`: `sub` occurs somewhere in `s`. -/
def contains : GoString → GoString → Bool
  | [], sub => sub.isEmpty
  | c :: cs, sub => hasPrefix (c :: cs) sub || contains cs sub

/-- The two failures `strconv` reports. -/
inductive NumError where
  | errSyntax
  | errRange
  deriving DecidableEq, Repr

deriving instance DecidableEq for Except

/-- The digit loop of `strconv.ParseUint`: `n` is the value so far, `cutoff`
the least value whose product with the base overflows 64 bits, `maxVal` the
largest value of the requested bit size. -/
def parseUintLoop (base cutoff maxVal : Nat) : Nat → GoString → Except NumError Nat
  | n, [] => .ok n
  | n, c :: cs =>
    let lower := c ||| 32
    let digit : Option Nat :=
      if 48 ≤ c ∧ c ≤ 57 then some (c - 48)
      else if 97 ≤ lower ∧ lower ≤ 122 then some (lower - 97 + 10)
      else none
    match digit with
    | none => .error .errSyntax
    | some d =>
      if d ≥ base then .error .errSyntax
      else if n ≥ cutoff then .error .errRange
      else if n * base + d > maxVal then .error .errRange
      else parseUintLoop base cutoff maxVal (n * base + d) cs

/-- Go's `strconv.ParseUint(s, base, bitSize)` for an explicit base between 2
and 36 and a bit size between 1 and 64 (no base prefix, no underscores). -/
def parseUint (s : GoString) (base bitSize : Nat) : Except NumError Nat :=
  if s = [] then .error .errSyntax
  else parseUintLoop base ((2 ^ 64 - 1) / base + 1) (2 ^ bitSize - 1) 0 s

/-- Go's `strconv.Atoi` on a 64-bit platform: an optional sign, then decimal
digits, the value within the range of `int`.  The short-input fast path of the
library computes the same result as the `ParseInt(s, 10, 0)` path followed
here. -/
def atoi (s : GoString) : Except NumError Int :=
  match s with
  | [] => .error .errSyntax
  | c :: cs =>
    let neg := c == 45
    let body := if c == 43 || c == 45 then cs else c :: cs
    match parseUint body 10 64 with
    | .error e => .error e
    | .ok un =>
      if !neg && un ≥ 2 ^ 63 then .error .errRange
      else if neg && un > 2 ^ 63 then .error .errRange
      else .ok (if neg then -(un : Int) else (un : Int))

/-- Go's `utf8.DecodeRuneInString` on a non-empty input: the rune and its
width in bytes; an invalid or truncated encoding is `U+FFFD` of width 1. -/
def decodeRune : GoString → Nat × Nat
  | [] => (0xFFFD, 0)
  | b0 :: rest =>
    let cont (b : Nat) : Bool := 0x80 ≤ b && b ≤ 0xBF
    if b0 < 0x80 then (b0, 1)
    else if 0xC2 ≤ b0 ∧ b0 ≤ 0xDF then
      match rest with
      | b1 :: _ => if cont b1 then ((b0 &&& 0x1F) <<< 6 ||| (b1 &&& 0x3F), 2) else (0xFFFD, 1)
      | _ => (0xFFFD, 1)
    else if 0xE0 ≤ b0 ∧ b0 ≤ 0xEF then
      let lo := if b0 = 0xE0 then 0xA0 else 0x80
      let hi := if b0 = 0xED then 0x9F else 0xBF
      match rest with
      | b1 :: b2 :: _ =>
        if lo ≤ b1 ∧ b1 ≤ hi ∧ cont b2 then
          ((b0 &&& 0x0F) <<< 12 ||| (b1 &&& 0x3F) <<< 6 ||| (b2 &&& 0x3F), 3)
        else (0xFFFD, 1)
      | _ => (0xFFFD, 1)
    else if 0xF0 ≤ b0 ∧ b0 ≤ 0xF4 then
      let lo := if b0 = 0xF0 then 0x90 else 0x80
      let hi := if b0 = 0xF4 then 0x8F else 0xBF
      match rest with
      | b1 :: b2 :: b3 :: _ =>
        if lo ≤ b1 ∧ b1 ≤ hi ∧ cont b2 ∧ cont b3 then
          ((b0 &&& 0x07) <<< 18 ||| (b1 &&& 0x3F) <<< 12 ||| (b2 &&& 0x3F) <<< 6 ||| (b3 &&& 0x3F), 4)
        else (0xFFFD, 1)
      | _ => (0xFFFD, 1)
    else (0xFFFD, 1)

/-- Go's `unicode.IsSpace`. -/
def isSpace (r : Nat) : Bool :=
  if r ≤ 0xFF then
    r == 9 || r == 10 || r == 11 || r == 12 || r == 13 || r == 32 || r == 0x85 || r == 0xA0
  else
    r == 0x1680 || (0x2000 ≤ r && r ≤ 0x200A) || r == 0x2028 || r == 0x2029 ||
      r == 0x202F || r == 0x205F || r == 0x3000

/-- The rune loop of `strings.FieldsFunc(s, unicode.IsSpace)`: `skip` counts the
bytes of the current rune still to pass over, `cur` is the field being
collected (`none` while between fields). -/
def fieldsAux : Nat → Option GoString → GoString → List GoString
  | _, none, [] => []
  | _, some f, [] => [f]
  | skip + 1, cur, b :: bs => fieldsAux skip (cur.map (· ++ [b])) bs
  | 0, cur, b :: bs =>
    let (r, w) := decodeRune (b :: bs)
    if isSpace r then
      match cur with
      | none => fieldsAux (w - 1) none bs
      | some f => f :: fieldsAux (w - 1) none bs
    else fieldsAux (w - 1) (some (cur.getD [] ++ [b])) bs

/-- Go's `strings.Fields`: the maximal runs of non-space runes.  (The library's
ASCII fast path returns the same fields as the general path modelled here.) -/
def fields (s : GoString) : List GoString := fieldsAux 0 none s

/-! ## Errors -/

/-- The format strings of the program's `fmt.Errorf` calls, with their
non-error operands. -/
inductive Msg where
  /-- Text `invalid socket link format`. -/
  | invalidSocketLink
  /-- Text `no process found for inode %d`. -/
  | noProcessForInode (inode : Int)
  /-- Text `couldn't open /proc/net/tcp: %w`. -/
  | couldntOpenTcp
  /-- Text `found /proc/net/tcp entry with process's port (%d) but couldn't read
  its inode (got '%s'): %w`. -/
  | inodeUnreadable (port : Nat) (field : GoString)
  /-- Text `got inode for process, but couldn't find its PID: %w`. -/
  | noPidForInode
  deriving DecidableEq, Repr

/-- The error values the program handles, as trees under `Unwrap`. -/
inductive GoError where
  /-- The package variable `ErrNoProcessForPort`, made by `errors.New`. -/
  | noProcessForPort
  /-- A failure reported by the `os` package, with its error number. -/
  | os (errno : Nat)
  /-- A `*strconv.NumError`. -/
  | num (e : NumError)
  /-- The result of `fmt.Errorf` without a `%w` operand. -/
  | errorf (m : Msg)
  /-- The result of `fmt.Errorf` with `cause` as its `%w` operand. -/
  | wrapf (m : Msg) (cause : GoError)
  /-- The result of `errors.Join(a, b)`. -/
  | join (a b : GoError)
  deriving DecidableEq, Repr

/-- The sentinel error of `pid_finder.go`. -/
def ErrNoProcessForPort : GoError := .noProcessForPort

/-- Go's `errors.Is(err, ErrNoProcessForPort)`: the sentinel is compared by
identity with `err` and with everything `err` unwraps to. -/
def isNoProcessForPort : GoError → Bool
  | .noProcessForPort => true
  | .os _ => false
  | .num _ => false
  | .errorf _ => false
  | .wrapf _ cause => isNoProcessForPort cause
  | .join a b => isNoProcessForPort a || isNoProcessForPort b

/-- Every error reachable from `err` through `Unwrap`, `err` first. -/
def unwrapTree : GoError → List GoError
  | .wrapf m cause => .wrapf m cause :: unwrapTree cause
  | .join a b => .join a b :: (unwrapTree a ++ unwrapTree b)
  | e => [e]

/-! ## The operating-system snapshot -/

/-- One entry of a `/proc/<pid>/fd` directory: its name and what `os.Readlink`
gives for it (`none` when the link cannot be read). -/
structure FdEntry where
  name : GoString
  link : Option GoString
  deriving DecidableEq, Repr

/-- One entry of `/proc`: its name and what `os.ReadDir` gives for its `fd`
subdirectory (`none` when it cannot be read). -/
structure ProcEntry where
  name : GoString
  fds : Option (List FdEntry)
  deriving DecidableEq, Repr

/-- What the resolver reads.  Field `tcp` is the result of opening
`/proc/net/tcp`: an error number, or the lines `bufio.Scanner` yields in order
(header line first).  Field `proc` is the result of `os.ReadDir` on `/proc`, in
enumeration order. -/
structure Sys where
  tcp : Except Nat (List GoString)
  proc : Except Nat (List ProcEntry)

/-- The observable steps of the resolver. -/
inductive Event where
  /-- The warning logged for a port field that does not parse. -/
  | logWarn (portStr : GoString)
  /-- Reading the directory `/proc`. -/
  | readDirProc
  /-- Reading the directory `/proc/<name>/fd`. -/
  | readDirFd (name : GoString)
  /-- Reading the link `/proc/<name>/fd/<fd>`. -/
  | readlink (name fd : GoString)
  deriving DecidableEq, Repr

/-- A runtime panic of the Go program. -/
inductive Panic where
  /-- Index `i` used on a slice of length `len`. -/
  | indexOutOfRange (i len : Nat)
  /-- Slice start `i` used on a string of length `len`. -/
  | sliceOutOfRange (i len : Nat)
  deriving DecidableEq, Repr

/-- How a call of `getPidFromPort` ends: it returns its two results, or the
goroutine panics. -/
inductive Outcome where
  | returned (pid : Nat) (err : Option GoError)
  | panicked (p : Panic)
  deriving DecidableEq, Repr

/-! ## pid_finder.go -/

/-- Source function `extractInodeFromLink`.  The integer returned next to a
non-nil error is never read by the caller and is not kept. -/
def extractInodeFromLink (link : GoString) : Except GoError Int :=
  if contains link (ascii "socket:") then
    let inodeStr := trimPrefix link (ascii "socket:[")
    let inodeStr := trimSuffix inodeStr (ascii "]")
    match atoi inodeStr with
    | .ok n => .ok n
    | .error e => .error (.num e)
  else .error (.errorf .invalidSocketLink)

/-- The inner loop of `getPidFromInode` over the entries of one `fd` directory:
whether a descriptor with the wanted inode was found, and the links read. -/
def scanFdFiles (inode : Int) (procName : GoString) : List FdEntry → Bool × List Event
  | [] => (false, [])
  | fdFile :: rest =>
    let continue_ := scanFdFiles inode procName rest
    let ev := Event.readlink procName fdFile.name
    match fdFile.link with
    | none => (continue_.1, ev :: continue_.2)
    | some link =>
      match extractInodeFromLink link with
      | .error _ => (continue_.1, ev :: continue_.2)
      | .ok socketInode =>
        if socketInode = inode then (true, [ev])
        else (continue_.1, ev :: continue_.2)

/-- The outer loop of `getPidFromInode` over the entries of `/proc`: the PID
found, if any, and the steps taken. -/
def scanProcFiles (inode : Int) : List ProcEntry → Option Int × List Event
  | [] => (none, [])
  | file :: rest =>
    let continue_ := scanProcFiles inode rest
    match atoi file.name with
    | .error _ => continue_
    | .ok pid =>
      let ev := Event.readDirFd file.name
      match file.fds with
      | none => (continue_.1, ev :: continue_.2)
      | some fdFiles =>
        let inner := scanFdFiles inode file.name fdFiles
        if inner.1 then (some pid, ev :: inner.2)
        else (continue_.1, ev :: (inner.2 ++ continue_.2))

/-- Source function `getPidFromInode`.  The `-1` returned next to a non-nil
error is never read by the caller and is not kept. -/
def getPidFromInode (proc : Except Nat (List ProcEntry)) (inode : Int) :
    Except GoError Int × List Event :=
  match proc with
  | .error errno => (.error (.os errno), [.readDirProc])
  | .ok files =>
    let r := scanProcFiles inode files
    match r.1 with
    | some pid => (.ok pid, .readDirProc :: r.2)
    | none => (.error (.errorf (.noProcessForInode inode)), .readDirProc :: r.2)

/-- Conversion `uint32(x)` of an `int`. -/
def toUint32 (x : Int) : Nat := (x % 2 ^ 32).toNat

/-- The loop of `getPidFromPort` over the lines after the header; `proc` is what
reading `/proc` gives. -/
def scanTcpLines (proc : Except Nat (List ProcEntry)) (proxyPort : Nat) :
    List GoString → Outcome × List Event
  | [] => (.returned 0 (some ErrNoProcessForPort), [])
  | line :: rest =>
    let continue_ := scanTcpLines proc proxyPort rest
    let fs := fields line
    match fs[1]? with
    | none => (.panicked (.indexOutOfRange 1 fs.length), [])
    | some localAddr =>
      if localAddr.length < 9 then (.panicked (.sliceOutOfRange 9 localAddr.length), [])
      else
        let portStr := localAddr.drop 9
        match parseUint portStr 16 16 with
        | .error _ => (continue_.1, .logWarn portStr :: continue_.2)
        | .ok port =>
          if port % 2 ^ 16 ≠ proxyPort then continue_
          else
            match fs[9]? with
            | none => (.panicked (.indexOutOfRange 9 fs.length), [])
            | some inodeField =>
              match atoi inodeField with
              | .error e =>
                (.returned 0 (some (.wrapf (.inodeUnreadable proxyPort inodeField) (.num e))), [])
              | .ok inode =>
                let r := getPidFromInode proc inode
                match r.1 with
                | .error err =>
                  (.returned 0 (some (.join ErrNoProcessForPort (.wrapf .noPidForInode err))), r.2)
                | .ok proxyPid => (.returned (toUint32 proxyPid) none, r.2)

/-- Source function `getPidFromPort`: what it returns (or the panic), and the
steps it took. -/
def getPidFromPort (sys : Sys) (proxyPort : Nat) : Outcome × List Event :=
  match sys.tcp with
  | .error errno => (.returned 0 (some (.wrapf .couldntOpenTcp (.os errno))), [])
  | .ok lines => scanTcpLines sys.proc proxyPort (lines.drop 1)

/-! ## tunnel.go -/

/-- Source type `SockAddrIn`: the structure `getsockopt` fills in.  Arrays of
bytes are tuples and lists of byte values. -/
structure SockAddrIn where
  SinFamily : Nat
  SinPort : Nat × Nat
  SinAddr : Nat × Nat × Nat × Nat
  Pad : List Nat
  deriving DecidableEq, Repr

/-- The zero value that `var originalDst SockAddrIn` declares. -/
def SockAddrIn.zero : SockAddrIn :=
  { SinFamily := 0, SinPort := (0, 0), SinAddr := (0, 0, 0, 0), Pad := List.replicate 8 0 }

/-- What `rawConn.Control` does with the closure of `handleConnection`. -/
inductive Control where
  /-- Method `Control` fails before running the closure; its error is dropped. -/
  | notRun
  /-- The closure runs and `getsockopt` fails with `errno`; the kernel has
  written nothing to `originalDst`. -/
  | getsockoptFailed (errno : Nat)
  /-- The closure runs and `getsockopt` stores `dst` in `originalDst`. -/
  | getsockoptOk (dst : SockAddrIn)
  deriving DecidableEq, Repr

/-- What one accepted connection meets: the result of `conn.SyscallConn()`
(`some errno` on failure), of `rawConn.Control`, whether `proxyDialer.Dial`
succeeds for a network and address, and whether the caller's `io.Copy` ends
with an error. -/
structure ConnEnv where
  syscallConn : Option Nat
  control : Control
  dial : GoString → GoString → Bool
  copyFails : Bool

/-- The observable steps of `handleConnection` in the caller's goroutine. -/
inductive ConnEvent where
  /-- Log line `Failed to get raw connection: %v`. -/
  | logRawConnFailed (errno : Nat)
  /-- Log line `getsockopt SO_ORIGINAL_DST failed: %v`. -/
  | logGetsockoptFailed (errno : Nat)
  /-- Printed line `Original destination: %s:%d`. -/
  | printOriginalDst (addr : GoString) (port : Nat)
  /-- The call `proxyDialer.Dial(network, addr)`. -/
  | dial (network addr : GoString)
  /-- Log line `Failed to connect to original destination: %v`. -/
  | logDialFailed
  /-- Printed line `Proxying connection from %s to %s`. -/
  | printProxying
  /-- The statement `go func() { io.Copy(targetConn, conn) }()`. -/
  | spawnCopyToTarget
  /-- The call `io.Copy(conn, targetConn)` in the caller. -/
  | copyFromTarget
  /-- Log line `Failed copying data from target: %v`. -/
  | logCopyFailed
  /-- The deferred `targetConn.Close()`. -/
  | closeTarget
  /-- The deferred `conn.Close()`. -/
  | closeConn
  deriving DecidableEq, Repr

/-- The text of `net.IPv4(a, b, c, d).String()`. -/
def ipv4String (a b c d : Nat) : GoString :=
  utoa a ++ ascii "." ++ utoa b ++ ascii "." ++ utoa c ++ ascii "." ++ utoa d

/-- Line 66 of `tunnel.go`: the address text of the recovered destination. -/
def targetAddr (dst : SockAddrIn) : GoString :=
  ipv4String dst.SinAddr.1 dst.SinAddr.2.1 dst.SinAddr.2.2.1 dst.SinAddr.2.2.2

/-- Line 67 of `tunnel.go`: `(uint16(SinPort[0]) << 8) | uint16(SinPort[1])`. -/
def targetPort (dst : SockAddrIn) : Nat :=
  (dst.SinPort.1 <<< 8) % 2 ^ 16 ||| dst.SinPort.2

/-- The text of `fmt.Sprintf("%s:%d", targetAddr, targetPort)`. -/
def dialTarget (dst : SockAddrIn) : GoString :=
  targetAddr dst ++ ascii ":" ++ utoa (targetPort dst)

/-- The value of `originalDst` after `rawConn.Control` returns. -/
def originalDstAfter : Control → SockAddrIn
  | .notRun => SockAddrIn.zero
  | .getsockoptFailed _ => SockAddrIn.zero
  | .getsockoptOk dst => dst

/-- The log lines written inside the closure given to `rawConn.Control`. -/
def controlLog : Control → List ConnEvent
  | .getsockoptFailed errno => [.logGetsockoptFailed errno]
  | _ => []

/-- Source function `handleConnection`, as the steps of the caller's
goroutine.  The steps of the goroutine it spawns are not part of this
sequence; see `Relay`. -/
def handleConnection (env : ConnEnv) : List ConnEvent :=
  match env.syscallConn with
  | some errno => [.logRawConnFailed errno, .closeConn]
  | none =>
    let originalDst := originalDstAfter env.control
    let addr := targetAddr originalDst
    let port := targetPort originalDst
    let target := dialTarget originalDst
    controlLog env.control ++
      [.printOriginalDst addr port, .dial (ascii "tcp") target] ++
      (if env.dial (ascii "tcp") target then
        [.printProxying, .spawnCopyToTarget, .copyFromTarget] ++
          (if env.copyFails then [.logCopyFailed] else []) ++ [.closeTarget, .closeConn]
      else [.logDialFailed, .closeConn])

/-- The port text of a table row: what follows the first nine bytes of its
second field, when the row has a second field of at least nine bytes. -/
def portField (line : GoString) : Option GoString :=
  match (fields line)[1]? with
  | none => none
  | some localAddr => if localAddr.length < 9 then none else some (localAddr.drop 9)

/-- The local port a table row decodes to, when its port text is a
hexadecimal number of 16 bits. -/
def decodedPort (line : GoString) : Option Nat :=
  match portField line with
  | none => none
  | some portStr =>
    match parseUint portStr 16 16 with
    | .ok port => some port
    | .error _ => none

/-- The inode a table row carries: its tenth field read as a decimal integer. -/
def rowInode (line : GoString) : Option Int :=
  match (fields line)[9]? with
  | none => none
  | some inodeField =>
    match atoi inodeField with
    | .ok inode => some inode
    | .error _ => none

/-- A row the scan passes over for port `p`: it has a port text, and that text
does not parse to `p`. -/
def Skipped (p : Nat) (line : GoString) : Prop :=
  ∃ portStr, portField line = some portStr ∧ parseUint portStr 16 16 ≠ .ok p

/-- Whether the scan passes over a row for port `p`, as a test. -/
def skipped (p : Nat) (line : GoString) : Bool :=
  match portField line with
  | none => false
  | some portStr => decide (parseUint portStr 16 16 ≠ .ok p)

/-- Whether a row has a port text that does not parse. -/
def unparsablePort (line : GoString) : Bool :=
  match portField line with
  | none => false
  | some portStr =>
    match parseUint portStr 16 16 with
    | .ok _ => false
    | .error _ => true

/-- Whether an outcome is a return with an error that `errors.Is` identifies
as `ErrNoProcessForPort`. -/
def Outcome.isNoProcess : Outcome → Bool
  | .returned _ (some err) => isNoProcessForPort err
  | _ => false

/-- The outcome "not found": PID 0 with the bare sentinel error. -/
def notFound : Outcome := .returned 0 (some ErrNoProcessForPort)

/-- The canonical text of a socket link with inode `n`. -/
def socketLink (n : Int) : GoString := ascii "socket:[" ++ itoa n ++ ascii "]"

/-- Whether a descriptor's link can be read and `extractInodeFromLink` reads
the inode `inode` from it. -/
def holdsInode (inode : Int) (fd : FdEntry) : Bool :=
  match fd.link with
  | none => false
  | some link => decide (extractInodeFromLink link = .ok inode)

/-- Whether an entry of `/proc` has a name that `strconv.Atoi` accepts. -/
def numericName (e : ProcEntry) : Bool :=
  match atoi e.name with
  | .ok _ => true
  | .error _ => false

/-- Whether an entry of `/proc` is a numerically named process with a readable
descriptor directory holding a descriptor that `holdsInode`. -/
def owns (inode : Int) (e : ProcEntry) : Bool :=
  numericName e &&
    match e.fds with
    | none => false
    | some fds => fds.any (holdsInode inode)

/-- Whether an entry of `/proc` is a numerically named process with a readable
descriptor whose link target is exactly `socket:[<inode>]`. -/
def ownsCanonical (inode : Int) (e : ProcEntry) : Bool :=
  numericName e &&
    match e.fds with
    | none => false
    | some fds => fds.any (fun fd => decide (fd.link = some (socketLink inode)))

/-- A well-formed table row: its port text decodes and its tenth field is a
decimal integer. -/
def wellFormedRow (line : GoString) : Bool :=
  (decodedPort line).isSome && (rowInode line).isSome

/-! ## Sample data -/

/-- The header line of `/proc/net/tcp`. -/
def tcpHeader : GoString :=
  ascii "  sl  local_address rem_address   st tx_queue rx_queue tr tm->when retrnsmt   uid  timeout inode"

/-- A row for a socket listening on port 8080 (hexadecimal 1F90), inode 34567. -/
def row8080 : GoString :=
  ascii "   0: 0100007F:1F90 00000000:0000 0A 00000000:00000000 00:00000000 00000000  1000        0 34567 1 0000000000000000 100 0 0 10 0"

/-- A row for a socket listening on port 22 (hexadecimal 0016), inode 20111. -/
def row22 : GoString :=
  ascii "   1: 00000000:0016 00000000:0000 0A 00000000:00000000 00:00000000 00000000     0        0 20111 1 0000000000000000 100 0 0 10 0"

/-- A row whose port text `1F9G` is not hexadecimal. -/
def rowBadPort : GoString :=
  ascii "   2: 0100007F:1F9G 00000000:0000 0A 00000000:00000000 00:00000000 00000000  1000        0 41000 1 0000000000000000 100 0 0 10 0"

/-- A row for port 8080 whose inode field `abc` is not a decimal integer. -/
def rowBadInode : GoString :=
  ascii "   3: 0100007F:1F90 00000000:0000 0A 00000000:00000000 00:00000000 00000000  1000        0 abc 1 0000000000000000 100 0 0 10 0"

/-- A listing of `/proc` in which process 12 holds socket inode 34567. -/
def procListing : List ProcEntry :=
  [ ⟨ascii "12", some [⟨ascii "0", some (ascii "/dev/null")⟩, ⟨ascii "3", some (ascii "socket:[34567]")⟩]⟩,
    ⟨ascii "self", none⟩ ]

/-- A listing of `/proc` in which process 1 holds a descriptor with the link
target `socket:[+34567]` and process 2 one with `socket:[34567]`. -/
def procListingTwo : List ProcEntry :=
  [ ⟨ascii "1", some [⟨ascii "4", some (ascii "socket:[+34567]")⟩]⟩,
    ⟨ascii "2", some [⟨ascii "5", some (ascii "socket:[34567]")⟩]⟩ ]

/-! ## Lemmas on the table scan -/

theorem Skipped_of_skipped (p : Nat) (line : GoString) (h : skipped p line = true) :
    Skipped p line := by
  unfold skipped at h
  split at h
  · cases h
  · rename_i portStr hf
    exact ⟨portStr, hf, by simpa using h⟩

theorem Skipped_of_unparsablePort (p : Nat) (line : GoString) (h : unparsablePort line = true) :
    Skipped p line := by
  unfold unparsablePort at h
  split at h
  · cases h
  · rename_i portStr hf
    split at h
    · cases h
    · rename_i e he
      exact ⟨portStr, hf, by rw [he]; simp⟩

theorem parseUintLoop_le (base cutoff maxVal : Nat) (s : GoString) :
    ∀ n v, n ≤ maxVal → parseUintLoop base cutoff maxVal n s = .ok v → v ≤ maxVal := by
  induction s with
  | nil => intro n v hn h; simp [parseUintLoop] at h; omega
  | cons c cs ih =>
    intro n v hn h
    simp only [parseUintLoop] at h
    split at h
    · cases h
    · split at h
      · cases h
      · split at h
        · cases h
        · split at h
          · cases h
          · exact ih _ _ (by omega) h

theorem parseUint_le (s : GoString) (base bitSize v : Nat)
    (h : parseUint s base bitSize = .ok v) : v ≤ 2 ^ bitSize - 1 := by
  unfold parseUint at h
  split at h
  · cases h
  · exact parseUintLoop_le _ _ _ _ _ _ (Nat.zero_le _) h

theorem parseUint16_mod (s : GoString) (v : Nat) (h : parseUint s 16 16 = .ok v) :
    v % 2 ^ 16 = v := by
  have := parseUint_le s 16 16 v h
  exact Nat.mod_eq_of_lt (by omega)

theorem scanTcpLines_skip (proc : Except Nat (List ProcEntry)) (p : Nat) (row : GoString) (rest : List GoString)
    (h : Skipped p row) :
    (scanTcpLines proc p (row :: rest)).1 = (scanTcpLines proc p rest).1 ∧
      (Event.readDirProc ∈ (scanTcpLines proc p (row :: rest)).2 ↔
        Event.readDirProc ∈ (scanTcpLines proc p rest).2) := by
  obtain ⟨portStr, hf, hp⟩ := h
  unfold portField at hf
  simp only [scanTcpLines]
  split at hf
  · cases hf
  · rename_i localAddr hl
    split at hf
    · cases hf
    · rename_i hlen
      simp only [if_neg hlen]
      cases hf
      cases hq : parseUint (List.drop 9 localAddr) 16 16 with
      | error e => simp
      | ok port =>
        have hne : port % 2 ^ 16 ≠ p := by
          rw [parseUint16_mod _ _ hq]
          intro hpp
          exact hp (by rw [hq, hpp])
        norm_num at hne
        simp [hne]

theorem scanTcpLines_skip_all (proc : Except Nat (List ProcEntry)) (p : Nat) (pre rest : List GoString)
    (h : ∀ r ∈ pre, Skipped p r) :
    (scanTcpLines proc p (pre ++ rest)).1 = (scanTcpLines proc p rest).1 ∧
      (Event.readDirProc ∈ (scanTcpLines proc p (pre ++ rest)).2 ↔
        Event.readDirProc ∈ (scanTcpLines proc p rest).2) := by
  induction pre with
  | nil => simp
  | cons a pre ih =>
    have ha := scanTcpLines_skip proc p a (pre ++ rest) (h a (by simp))
    have ih2 := ih (fun r hr => h r (by simp [hr]))
    simp only [List.cons_append]
    exact ⟨ha.1.trans ih2.1, ha.2.trans ih2.2⟩

theorem scanTcpLines_cons_congr (proc : Except Nat (List ProcEntry)) (p : Nat) (a : GoString) (r1 r2 : List GoString)
    (h : (scanTcpLines proc p r1).1 = (scanTcpLines proc p r2).1) :
    (scanTcpLines proc p (a :: r1)).1 = (scanTcpLines proc p (a :: r2)).1 := by
  simp only [scanTcpLines]
  split
  · rfl
  · split
    · rfl
    · split
      · exact h
      · split
        · exact h
        · rfl

theorem scanTcpLines_remove (proc : Except Nat (List ProcEntry)) (p : Nat) (pre : List GoString) (row : GoString)
    (post : List GoString) (h : Skipped p row) :
    (scanTcpLines proc p (pre ++ row :: post)).1 = (scanTcpLines proc p (pre ++ post)).1 := by
  induction pre with
  | nil => exact (scanTcpLines_skip proc p row post h).1
  | cons a pre ih => exact scanTcpLines_cons_congr proc p a _ _ ih

theorem scanTcpLines_notFound (proc : Except Nat (List ProcEntry)) (p : Nat) (rows : List GoString)
    (h : (scanTcpLines proc p rows).1 = notFound) : ∀ r ∈ rows, decodedPort r ≠ some p := by
  induction rows with
  | nil => simp
  | cons a rows ih =>
    simp only [scanTcpLines] at h
    intro r hr
    have key : decodedPort a ≠ some p ∧ (scanTcpLines proc p rows).1 = notFound := by
      unfold decodedPort portField
      split at h
      · cases h
      · rename_i localAddr hl
        split at h
        · cases h
        · rename_i hlen
          simp only [if_neg hlen]
          split at h
          · rename_i e hq
            simp only [hq]
            exact ⟨by simp, h⟩
          · rename_i port hq
            simp only [hq]
            split at h
            · rename_i hne
              rw [parseUint16_mod _ _ hq] at hne
              exact ⟨by simpa using hne, h⟩
            · exfalso
              split at h
              · cases h
              · split at h
                · simp [notFound, ErrNoProcessForPort] at h
                · split at h <;> simp [notFound, ErrNoProcessForPort] at h
    rcases List.mem_cons.1 hr with rfl | hr
    · exact key.1
    · exact ih key.2 r hr

theorem scanTcpLines_match (proc : Except Nat (List ProcEntry)) (p : Nat) (row : GoString)
    (rest : List GoString) (inodeField : GoString) (hrow : decodedPort row = some p)
    (hf : (fields row)[9]? = some inodeField) :
    (scanTcpLines proc p (row :: rest)).1 =
      match atoi inodeField with
      | .error e => .returned 0 (some (.wrapf (.inodeUnreadable p inodeField) (.num e)))
      | .ok inode =>
        match (getPidFromInode proc inode).1 with
        | .error err => .returned 0 (some (.join ErrNoProcessForPort (.wrapf .noPidForInode err)))
        | .ok proxyPid => .returned (toUint32 proxyPid) none := by
  cases h1 : (fields row)[1]? with
  | none => simp [decodedPort, portField, h1] at hrow
  | some localAddr =>
    by_cases hlen : localAddr.length < 9
    · simp [decodedPort, portField, h1, hlen] at hrow
    · cases hq : parseUint (localAddr.drop 9) 16 16 with
      | error e => simp [decodedPort, portField, h1, hlen, hq] at hrow
      | ok port =>
        simp [decodedPort, portField, h1, hlen, hq] at hrow
        subst hrow
        have hmod := parseUint16_mod _ _ hq
        simp only [scanTcpLines, h1, hf, if_neg hlen, hq, hmod, ne_eq, not_true_eq_false,
          if_false]
        split
        · rfl
        · split <;> rfl

theorem getPidFromInode_reads_proc (proc : Except Nat (List ProcEntry)) (inode : Int) :
    Event.readDirProc ∈ (getPidFromInode proc inode).2 := by
  unfold getPidFromInode
  split
  · simp
  · simp only []
    split <;> simp

/-! ## Claims on the table scan -/

/-- C1, as stated, fails: on a table whose only row after the header is a blank
line, no row's port field decodes to 8080, yet `getPidFromPort(8080)` does not
return `ErrNoProcessForPort`; it panics on `fields[1]`. -/
theorem getPidFromPort_blank_row_panics :
    (∀ row ∈ ([tcpHeader, ascii ""] : List GoString).drop 1, decodedPort row ≠ some 8080) ∧
      (getPidFromPort ⟨.ok [tcpHeader, ascii ""], .ok procListing⟩ 8080).1 =
        .panicked (.indexOutOfRange 1 0) ∧
      (getPidFromPort ⟨.ok [tcpHeader, ascii ""], .ok procListing⟩ 8080).1 ≠ notFound := by
  decide

/-- C1, amended: for every port `p` and every table in which each row after the
header has a second field of at least nine bytes whose port text does not
decode to `p`, `getPidFromPort(p)` returns PID 0 with the error
`ErrNoProcessForPort` and never reads `/proc`, which every call of
`getPidFromInode` does first. -/
theorem getPidFromPort_no_matching_row (sys : Sys) (p : Nat) (lines : List GoString)
    (hopen : sys.tcp = .ok lines) (hrows : ∀ row ∈ lines.drop 1, skipped p row = true) :
    (getPidFromPort sys p).1 = .returned 0 (some ErrNoProcessForPort) ∧
      Event.readDirProc ∉ (getPidFromPort sys p).2 ∧
      ∀ inode, Event.readDirProc ∈ (getPidFromInode sys.proc inode).2 := by
  have h := scanTcpLines_skip_all sys.proc p (lines.drop 1) []
    (fun r hr => Skipped_of_skipped p r (hrows r hr))
  simp only [List.append_nil] at h
  refine ⟨?_, ?_, getPidFromInode_reads_proc sys.proc⟩
  · simp only [getPidFromPort, hopen]
    rw [h.1]
    rfl
  · simp only [getPidFromPort, hopen]
    rw [h.2]
    simp [scanTcpLines]

/-- C1, amended, at a table with one row for port 22 and the port 8080. -/
theorem getPidFromPort_no_matching_row_witness :
    (getPidFromPort ⟨.ok [tcpHeader, row22], .ok procListing⟩ 8080).1 =
        .returned 0 (some ErrNoProcessForPort) ∧
      Event.readDirProc ∉ (getPidFromPort ⟨.ok [tcpHeader, row22], .ok procListing⟩ 8080).2 ∧
      ∀ inode, Event.readDirProc ∈ (getPidFromInode (.ok procListing) inode).2 :=
  getPidFromPort_no_matching_row ⟨.ok [tcpHeader, row22], .ok procListing⟩ 8080
    [tcpHeader, row22] rfl (by decide)

/-- C3: a row after the header whose port text does not parse is passed over
and the scan goes on: the result of `getPidFromPort(p)` is its result on the
table without that row, and it is the "not found" result only if no other row
decodes to `p`. -/
theorem getPidFromPort_skips_unparsable_port (proc : Except Nat (List ProcEntry)) (p : Nat)
    (hdr : GoString) (pre : List GoString) (row : GoString) (post : List GoString)
    (hrow : unparsablePort row = true) :
    (getPidFromPort ⟨.ok (hdr :: (pre ++ row :: post)), proc⟩ p).1 =
        (getPidFromPort ⟨.ok (hdr :: (pre ++ post)), proc⟩ p).1 ∧
      ((getPidFromPort ⟨.ok (hdr :: (pre ++ row :: post)), proc⟩ p).1 = notFound →
        ∀ r ∈ pre ++ post, decodedPort r ≠ some p) := by
  have hrm := scanTcpLines_remove proc p pre row post (Skipped_of_unparsablePort p row hrow)
  refine ⟨?_, ?_⟩
  · simpa [getPidFromPort] using hrm
  · intro h
    have h2 : (scanTcpLines proc p (pre ++ post)).1 = notFound := by
      rw [← hrm]
      simpa [getPidFromPort] using h
    exact scanTcpLines_notFound proc p _ h2

/-- C3 at a table whose unparsable row stands before the row for port 8080:
process 12 is still found. -/
theorem getPidFromPort_skips_unparsable_port_witness :
    unparsablePort rowBadPort = true ∧
      (getPidFromPort ⟨.ok (tcpHeader :: ([row22] ++ rowBadPort :: [row8080])), .ok procListing⟩
          8080).1 = .returned 12 none ∧
      (getPidFromPort ⟨.ok (tcpHeader :: ([row22] ++ rowBadPort :: [row8080])), .ok procListing⟩
          8080).1 =
        (getPidFromPort ⟨.ok (tcpHeader :: ([row22] ++ [row8080])), .ok procListing⟩ 8080).1 :=
  ⟨by decide, by decide,
    (getPidFromPort_skips_unparsable_port (.ok procListing) 8080 tcpHeader [row22] rowBadPort
      [row8080] (by decide)).1⟩

/-- C6, as stated, fails: the first row that decodes to port 8080 carries the
inode 34567, which no process of an empty listing claims, but a one-field row
stands before it and `getPidFromPort(8080)` panics on `fields[1]` instead of
returning an error. -/
theorem getPidFromPort_short_row_before_match_panics :
    (∀ r ∈ [ascii "x"], decodedPort r ≠ some 8080) ∧
      decodedPort row8080 = some 8080 ∧ rowInode row8080 = some 34567 ∧
      (getPidFromInode (.ok []) 34567).1 = .error (.errorf (.noProcessForInode 34567)) ∧
      (getPidFromPort ⟨.ok (tcpHeader :: ([ascii "x"] ++ row8080 :: [])), .ok []⟩ 8080).1 =
        .panicked (.indexOutOfRange 1 1) := by
  decide

/-- C6, amended: when every row before the first row decoding to `p` has a
second field of at least nine bytes, that row's tenth field is the decimal
integer `I`, and `getPidFromInode(I)` fails with `cause`, then
`getPidFromPort(p)` returns PID 0 with `errors.Join` of `ErrNoProcessForPort`
and an error wrapping `cause`: `errors.Is` finds the sentinel, and `cause` is
reached by unwrapping. -/
theorem getPidFromPort_unclaimed_inode (proc : Except Nat (List ProcEntry)) (p : Nat)
    (hdr : GoString) (pre : List GoString) (row : GoString) (post : List GoString)
    (I : Int) (cause : GoError)
    (hpre : ∀ r ∈ pre, skipped p r = true) (hrow : decodedPort row = some p)
    (hino : rowInode row = some I) (hfail : (getPidFromInode proc I).1 = .error cause) :
    (getPidFromPort ⟨.ok (hdr :: (pre ++ row :: post)), proc⟩ p).1 =
        .returned 0 (some (.join ErrNoProcessForPort (.wrapf .noPidForInode cause))) ∧
      (getPidFromPort ⟨.ok (hdr :: (pre ++ row :: post)), proc⟩ p).1.isNoProcess = true ∧
      cause ∈ unwrapTree (.join ErrNoProcessForPort (.wrapf .noPidForInode cause)) := by
  have hskip := (scanTcpLines_skip_all proc p pre (row :: post)
    (fun r hr => Skipped_of_skipped p r (hpre r hr))).1
  have hout : (getPidFromPort ⟨.ok (hdr :: (pre ++ row :: post)), proc⟩ p).1 =
      .returned 0 (some (.join ErrNoProcessForPort (.wrapf .noPidForInode cause))) := by
    simp only [getPidFromPort, List.drop_succ_cons, List.drop_zero]
    rw [hskip]
    unfold rowInode at hino
    split at hino
    · cases hino
    · rename_i inodeField hf
      rw [scanTcpLines_match proc p row post inodeField hrow hf]
      split at hino
      · rename_i inode ha
        cases hino
        simp only [ha, hfail]
      · cases hino
  refine ⟨hout, ?_, ?_⟩
  · rw [hout]
    simp [Outcome.isNoProcess, isNoProcessForPort, ErrNoProcessForPort]
  · have hself : cause ∈ unwrapTree cause := by
      cases cause <;> simp [unwrapTree]
    simp [unwrapTree, ErrNoProcessForPort, hself]

/-- C6, amended, at a table whose row for port 8080 follows a row for port 22,
with a process listing in which nobody holds inode 34567. -/
theorem getPidFromPort_unclaimed_inode_witness :
    (getPidFromPort ⟨.ok (tcpHeader :: ([row22] ++ row8080 :: [])), .ok [⟨ascii "self", none⟩]⟩
        8080).1 =
      .returned 0 (some (.join ErrNoProcessForPort
        (.wrapf .noPidForInode (.errorf (.noProcessForInode 34567))))) :=
  (getPidFromPort_unclaimed_inode (.ok [⟨ascii "self", none⟩]) 8080 tcpHeader [row22] row8080 []
    34567 (.errorf (.noProcessForInode 34567)) (by decide) (by decide) (by decide)
    (by decide)).1

/-- C7, as stated, fails: when `/proc/net/tcp` cannot be opened (error number
2), `getPidFromPort(8080)` returns an error that `errors.Is` does not identify
as `ErrNoProcessForPort`, and not the result it returns on a table without a
matching row. -/
theorem getPidFromPort_unopened_table_is_not_notFound :
    (getPidFromPort ⟨.error 2, .ok procListing⟩ 8080).1.isNoProcess = false ∧
      (getPidFromPort ⟨.ok [tcpHeader, row22], .ok procListing⟩ 8080).1 = notFound ∧
      (getPidFromPort ⟨.error 2, .ok procListing⟩ 8080).1 ≠
        (getPidFromPort ⟨.ok [tcpHeader, row22], .ok procListing⟩ 8080).1 := by
  decide

/-- C7, amended: for every port `p`, when `/proc/net/tcp` cannot be opened,
`getPidFromPort(p)` returns PID 0 with an error of its own that wraps the
failure of `os.Open`; `errors.Is` does not identify it as
`ErrNoProcessForPort`, it differs from the "not found" result, and nothing is
scanned. -/
theorem getPidFromPort_unopened_table (proc : Except Nat (List ProcEntry)) (p errno : Nat) :
    getPidFromPort ⟨.error errno, proc⟩ p =
        (.returned 0 (some (.wrapf .couldntOpenTcp (.os errno))), []) ∧
      (getPidFromPort ⟨.error errno, proc⟩ p).1.isNoProcess = false ∧
      (getPidFromPort ⟨.error errno, proc⟩ p).1 ≠ notFound ∧
      GoError.os errno ∈ unwrapTree (.wrapf .couldntOpenTcp (.os errno)) := by
  refine ⟨rfl, rfl, ?_, ?_⟩
  · simp [getPidFromPort, notFound, ErrNoProcessForPort]
  · simp [unwrapTree]

/-- C10, as stated, fails: a row for port 8080 whose inode field is `abc` is not
passed over.  With it the call returns an error about the unreadable inode;
on the table without it the call finds process 12. -/
theorem getPidFromPort_bad_inode_row_not_skipped :
    (getPidFromPort ⟨.ok (tcpHeader :: ([] ++ rowBadInode :: [row8080])), .ok procListing⟩ 8080).1 =
        .returned 0 (some (.wrapf (.inodeUnreadable 8080 (ascii "abc")) (.num .errSyntax))) ∧
      (getPidFromPort ⟨.ok (tcpHeader :: ([] ++ [row8080])), .ok procListing⟩ 8080).1 =
        .returned 12 none := by
  decide

/-- C10, amended: a row after the header that has a second field of at least
nine bytes and whose port text does not parse, or parses to a port other than
`p`, is passed over whatever its other fields are: the result is the result
on the table without it.  A row that decodes to `p` and whose tenth field is
not a decimal integer is not passed over: when the rows before it are passed
over, the call returns PID 0 with an error wrapping the parse failure, which
`errors.Is` does not identify as `ErrNoProcessForPort`, and the rows after it
are not read. -/
theorem getPidFromPort_malformed_row (proc : Except Nat (List ProcEntry)) (p : Nat)
    (hdr : GoString) (pre : List GoString) (row : GoString) (post : List GoString) :
    (skipped p row = true →
      (getPidFromPort ⟨.ok (hdr :: (pre ++ row :: post)), proc⟩ p).1 =
        (getPidFromPort ⟨.ok (hdr :: (pre ++ post)), proc⟩ p).1) ∧
    (∀ inodeField e, (∀ r ∈ pre, skipped p r = true) → decodedPort row = some p →
      (fields row)[9]? = some inodeField → atoi inodeField = .error e →
      (getPidFromPort ⟨.ok (hdr :: (pre ++ row :: post)), proc⟩ p).1 =
          .returned 0 (some (.wrapf (.inodeUnreadable p inodeField) (.num e))) ∧
        (getPidFromPort ⟨.ok (hdr :: (pre ++ row :: post)), proc⟩ p).1.isNoProcess = false) := by
  refine ⟨?_, ?_⟩
  · intro hrow
    have hrm := scanTcpLines_remove proc p pre row post (Skipped_of_skipped p row hrow)
    simpa [getPidFromPort] using hrm
  · intro inodeField e hpre hrow hf ha
    have hskip := (scanTcpLines_skip_all proc p pre (row :: post)
      (fun r hr => Skipped_of_skipped p r (hpre r hr))).1
    have hout : (getPidFromPort ⟨.ok (hdr :: (pre ++ row :: post)), proc⟩ p).1 =
        .returned 0 (some (.wrapf (.inodeUnreadable p inodeField) (.num e))) := by
      simp only [getPidFromPort, List.drop_succ_cons, List.drop_zero]
      rw [hskip, scanTcpLines_match proc p row post inodeField hrow hf]
      simp only [ha]
    refine ⟨hout, ?_⟩
    rw [hout]
    rfl

/-- C10, amended, at a table with a nine-field row for port 22 before the row
for port 8080, and at a table whose row for port 8080 has the inode field
`abc`. -/
theorem getPidFromPort_malformed_row_witness :
    (getPidFromPort ⟨.ok (tcpHeader :: ([] ++ ascii "1: 00000000:0016 a b c d e f g" :: [row8080])),
        .ok procListing⟩ 8080).1 =
      (getPidFromPort ⟨.ok (tcpHeader :: ([] ++ [row8080])), .ok procListing⟩ 8080).1 ∧
    (getPidFromPort ⟨.ok (tcpHeader :: ([row22] ++ rowBadInode :: [row8080])), .ok procListing⟩
        8080).1 =
      .returned 0 (some (.wrapf (.inodeUnreadable 8080 (ascii "abc")) (.num .errSyntax))) :=
  ⟨(getPidFromPort_malformed_row (.ok procListing) 8080 tcpHeader []
      (ascii "1: 00000000:0016 a b c d e f g") [row8080]).1 (by decide),
    ((getPidFromPort_malformed_row (.ok procListing) 8080 tcpHeader [row22] rowBadInode
      [row8080]).2 (ascii "abc") .errSyntax (by decide) (by decide) (by decide) (by decide)).1⟩

/-! ## Claims on the tunnel -/

theorem dialTarget_zero : dialTarget SockAddrIn.zero = ascii "0.0.0.0:0" := by decide

theorem targetPort_eq (fam p0 p1 : Nat) (addr : Nat × Nat × Nat × Nat) (pad : List Nat)
    (hp0 : p0 < 256) (hp1 : p1 < 256) : targetPort ⟨fam, (p0, p1), addr, pad⟩ = 256 * p0 + p1 := by
  have h1 : (p0 <<< 8) % 2 ^ 16 = 2 ^ 8 * p0 := by
    rw [Nat.shiftLeft_eq, Nat.mod_eq_of_lt (by omega), Nat.mul_comm]
  simp only [targetPort, h1]
  rw [← Nat.mul_add_lt_is_or (by omega) p0]

/-- C4, evaluated on the code: when `getsockopt` fails on an accepted connection
(any error number), `handleConnection` logs the failure and goes on with the
zero value of `originalDst`: it prints the destination `0.0.0.0:0` and calls
`proxyDialer.Dial("tcp", "0.0.0.0:0")`; when that dial succeeds it relays.  The
failure of `conn.SyscallConn()`, in the same function, is logged and ends the
call with the connection closed and nothing dialed. -/
theorem handleConnection_dials_after_getsockopt_failure (errno : Nat)
    (dial : GoString → GoString → Bool) (copyFails : Bool) :
    (handleConnection ⟨none, .getsockoptFailed errno, dial, copyFails⟩).take 3 =
        [.logGetsockoptFailed errno, .printOriginalDst (ascii "0.0.0.0") 0,
          .dial (ascii "tcp") (ascii "0.0.0.0:0")] ∧
      (handleConnection ⟨none, .getsockoptFailed errno, fun _ _ => true, copyFails⟩).take 6 =
        [.logGetsockoptFailed errno, .printOriginalDst (ascii "0.0.0.0") 0,
          .dial (ascii "tcp") (ascii "0.0.0.0:0"), .printProxying, .spawnCopyToTarget,
          .copyFromTarget] ∧
      (∀ ctl, handleConnection ⟨some errno, ctl, dial, copyFails⟩ =
        [.logRawConnFailed errno, .closeConn]) := by
  have hz := dialTarget_zero
  have ha : targetAddr SockAddrIn.zero = ascii "0.0.0.0" := by decide
  have hp : targetPort SockAddrIn.zero = 0 := by decide
  refine ⟨?_, ?_, fun ctl => rfl⟩ <;>
    simp [handleConnection, originalDstAfter, controlLog, hz, ha, hp]

/-- C5: for port bytes `p0`, `p1` and address bytes `a0` to `a3` stored by
`getsockopt`, the recovered port is `256 * p0 + p1`, at most 65535, the
recovered address text is `a0.a1.a2.a3` in decimal, and the only address
`handleConnection` dials is that text, a colon, and the port in decimal.  The
address bytes 10, 0, 0, 5 with the port bytes 1, 187 give `10.0.0.5:443`. -/
theorem handleConnection_recovers_destination (fam p0 p1 a0 a1 a2 a3 : Nat) (pad : List Nat)
    (dial : GoString → GoString → Bool) (copyFails : Bool)
    (hp0 : p0 < 256) (hp1 : p1 < 256) :
    targetPort ⟨fam, (p0, p1), (a0, a1, a2, a3), pad⟩ = 256 * p0 + p1 ∧
      targetPort ⟨fam, (p0, p1), (a0, a1, a2, a3), pad⟩ ≤ 65535 ∧
      targetAddr ⟨fam, (p0, p1), (a0, a1, a2, a3), pad⟩ =
        utoa a0 ++ ascii "." ++ utoa a1 ++ ascii "." ++ utoa a2 ++ ascii "." ++ utoa a3 ∧
      (∀ network addr,
        ConnEvent.dial network addr ∈
            handleConnection ⟨none, .getsockoptOk ⟨fam, (p0, p1), (a0, a1, a2, a3), pad⟩, dial,
              copyFails⟩ ↔
          network = ascii "tcp" ∧
            addr = utoa a0 ++ ascii "." ++ utoa a1 ++ ascii "." ++ utoa a2 ++ ascii "." ++ utoa a3 ++
              ascii ":" ++ utoa (256 * p0 + p1)) ∧
      targetAddr ⟨2, (1, 187), (10, 0, 0, 5), List.replicate 8 0⟩ = ascii "10.0.0.5" ∧
      targetPort ⟨2, (1, 187), (10, 0, 0, 5), List.replicate 8 0⟩ = 443 ∧
      dialTarget ⟨2, (1, 187), (10, 0, 0, 5), List.replicate 8 0⟩ = ascii "10.0.0.5:443" := by
  have hport := targetPort_eq fam p0 p1 (a0, a1, a2, a3) pad hp0 hp1
  refine ⟨hport, by omega, rfl, ?_, by decide, by decide, by decide⟩
  intro network addr
  simp only [handleConnection, originalDstAfter, controlLog, dialTarget, hport, targetAddr,
    ipv4String]
  split <;> simp [eq_comm]

/-- C5 at the bytes of `93.184.216.34:80`. -/
theorem handleConnection_recovers_destination_witness :
    targetPort ⟨2, (0, 80), (93, 184, 216, 34), []⟩ = 256 * 0 + 80 ∧
      ConnEvent.dial (ascii "tcp") (ascii "93.184.216.34:80") ∈
        handleConnection ⟨none, .getsockoptOk ⟨2, (0, 80), (93, 184, 216, 34), []⟩,
          fun _ _ => true, false⟩ :=
  ⟨(handleConnection_recovers_destination 2 0 80 93 184 216 34 [] (fun _ _ => true) false
      (by decide) (by decide)).1,
    ((handleConnection_recovers_destination 2 0 80 93 184 216 34 [] (fun _ _ => true) false
      (by decide) (by decide)).2.2.2.1 (ascii "tcp") (ascii "93.184.216.34:80")).2
      ⟨rfl, by decide⟩⟩

/-! ## Claims on the relay -/

theorem ascii_socket_colon : ascii "socket:" = [115, 111, 99, 107, 101, 116, 58] := by decide

theorem ascii_socket_open : ascii "socket:[" = [115, 111, 99, 107, 101, 116, 58, 91] := by
  decide

theorem ascii_close : ascii "]" = [93] := by decide

theorem parseUintLoop_digits (cutoff maxVal : Nat) (s : GoString) :
    ∀ n v, parseUintLoop 10 cutoff maxVal n s = .ok v → ∀ c ∈ s, 48 ≤ c ∧ c ≤ 57 := by
  induction s with
  | nil => intro n v _ c hc; cases hc
  | cons c cs ih =>
    intro n v h x hx
    simp only [parseUintLoop] at h
    split at h
    · cases h
    · rename_i d hd
      split at h
      · cases h
      · rename_i hbase
        split at h
        · cases h
        · split at h
          · cases h
          · rcases List.mem_cons.1 hx with rfl | hx
            · by_cases h1 : 48 ≤ x ∧ x ≤ 57
              · exact h1
              · rw [if_neg h1] at hd
                split at hd
                · simp only [Option.some.injEq] at hd
                  omega
                · cases hd
            · exact ih _ _ h x hx

theorem parseUintLoop_append (base cutoff maxVal : Nat) (xs ys : GoString) :
    ∀ n, parseUintLoop base cutoff maxVal n (xs ++ ys) =
      match parseUintLoop base cutoff maxVal n xs with
      | .ok v => parseUintLoop base cutoff maxVal v ys
      | .error e => .error e := by
  induction xs with
  | nil => intro n; simp [parseUintLoop]
  | cons c cs ih =>
    intro n
    simp only [List.cons_append, parseUintLoop]
    split
    · rfl
    · split
      · rfl
      · split
        · rfl
        · split
          · rfl
          · exact ih _

theorem utoaAux_digits : ∀ fuel n, ∀ c ∈ utoaAux fuel n, 48 ≤ c ∧ c ≤ 57 := by
  intro fuel
  induction fuel with
  | zero => intro n c hc; simp [utoaAux] at hc
  | succ f ih =>
    intro n c hc
    simp only [utoaAux] at hc
    split at hc
    · simp only [List.mem_singleton] at hc
      omega
    · rcases List.mem_append.1 hc with h | h
      · exact ih _ c h
      · simp only [List.mem_singleton] at h
        omega

theorem utoaAux_ne_nil (fuel n : Nat) : utoaAux (fuel + 1) n ≠ [] := by
  simp only [utoaAux]
  split <;> simp

theorem parseUintLoop_digit (n d : Nat) (hd : d < 10) (hn : n * 10 + d < 2 ^ 64) :
    parseUintLoop 10 ((2 ^ 64 - 1) / 10 + 1) (2 ^ 64 - 1) n [48 + d] = .ok (n * 10 + d) := by
  have h1 : 48 ≤ 48 + d ∧ 48 + d ≤ 57 := by omega
  have h2 : 48 + d - 48 = d := by omega
  have h3 : ¬ d ≥ 10 := by omega
  have h4 : ¬ n ≥ (2 ^ 64 - 1) / 10 + 1 := by omega
  have h5 : ¬ n * 10 + d > 2 ^ 64 - 1 := by omega
  simp only [parseUintLoop, h1, and_self, if_true, h2, h3, if_false, h4, h5]

theorem parseUintLoop_utoaAux : ∀ fuel n, n < fuel → n < 2 ^ 64 →
    parseUintLoop 10 ((2 ^ 64 - 1) / 10 + 1) (2 ^ 64 - 1) 0 (utoaAux fuel n) = .ok n := by
  intro fuel
  induction fuel with
  | zero => intro n h; omega
  | succ f ih =>
    intro n hf hn
    simp only [utoaAux]
    split
    · rename_i hlt
      have := parseUintLoop_digit 0 n hlt (by omega)
      simpa using this
    · rename_i hge
      rw [parseUintLoop_append, ih (n / 10) (by omega) (by omega)]
      have := parseUintLoop_digit (n / 10) (n % 10) (by omega) (by omega)
      simp only [this]
      congr 1
      omega

theorem parseUint_utoa (n : Nat) (hn : n < 2 ^ 64) : parseUint (utoa n) 10 64 = .ok n := by
  unfold parseUint utoa
  rw [if_neg (utoaAux_ne_nil n n)]
  exact parseUintLoop_utoaAux (n + 1) n (by omega) hn

theorem atoi_ok_chars (t : GoString) (n : Int) (h : atoi t = .ok n) :
    t ≠ [] ∧ ∀ c ∈ t, c = 43 ∨ c = 45 ∨ (48 ≤ c ∧ c ≤ 57) := by
  cases t with
  | nil => simp [atoi] at h
  | cons c cs =>
    refine ⟨by simp, ?_⟩
    simp only [atoi] at h
    by_cases hs : (c == 43 || c == 45) = true
    · simp only [hs, if_true] at h
      cases hu : parseUint cs 10 64 with
      | error e => rw [hu] at h; cases h
      | ok un =>
        unfold parseUint at hu
        by_cases hnil : cs = []
        · rw [if_pos hnil] at hu; cases hu
        · rw [if_neg hnil] at hu
          have hd := parseUintLoop_digits _ _ _ _ _ hu
          intro x hx
          rcases List.mem_cons.1 hx with rfl | hx
          · simp only [Bool.or_eq_true, beq_iff_eq] at hs
            rcases hs with hs | hs
            · exact Or.inl hs
            · exact Or.inr (Or.inl hs)
          · exact Or.inr (Or.inr (hd x hx))
    · simp only [hs, if_false, Bool.false_eq_true] at h
      cases hu : parseUint (c :: cs) 10 64 with
      | error e => rw [hu] at h; cases h
      | ok un =>
        unfold parseUint at hu
        rw [if_neg (by simp)] at hu
        have hd := parseUintLoop_digits _ _ _ _ _ hu
        intro x hx
        exact Or.inr (Or.inr (hd x hx))

theorem atoi_range (t : GoString) (n : Int) (h : atoi t = .ok n) :
    -2 ^ 63 ≤ n ∧ n < 2 ^ 63 := by
  cases t with
  | nil => simp [atoi] at h
  | cons c cs =>
    simp only [atoi] at h
    split at h
    · cases h
    · rename_i un hu
      split at h
      · cases h
      · split at h
        · cases h
        · rename_i h1 h2
          simp only [Except.ok.injEq] at h
          by_cases hneg : (c == 45) = true
          · simp only [hneg, Bool.true_and, decide_eq_true_eq, if_true] at h h2
            omega
          · simp only [hneg, Bool.not_false, Bool.true_and, decide_eq_true_eq, if_false,
              Bool.false_eq_true] at h h1
            omega

theorem atoi_minus (cs : GoString) (m : Nat) (hp : parseUint cs 10 64 = .ok m)
    (hm : m ≤ 2 ^ 63) : atoi (45 :: cs) = .ok (-(m : Int)) := by
  have hle : ¬ m > 2 ^ 63 := by omega
  simp only [atoi, beq_self_eq_true, Bool.or_true, if_true, hp, Bool.not_true, Bool.false_and,
    Bool.false_eq_true, if_false, Bool.true_and, decide_eq_true_eq, hle]

theorem atoi_unsigned (c : Nat) (cs : GoString) (m : Nat) (hc : 48 ≤ c ∧ c ≤ 57)
    (hp : parseUint (c :: cs) 10 64 = .ok m) (hm : m < 2 ^ 63) :
    atoi (c :: cs) = .ok (m : Int) := by
  have h43 : (c == 43) = false := by simp; omega
  have h45 : (c == 45) = false := by simp; omega
  have hlt : ¬ m ≥ 2 ^ 63 := by omega
  simp only [atoi, h43, h45, Bool.or_false, Bool.false_eq_true, if_false, hp, Bool.not_false,
    Bool.true_and, decide_eq_true_eq, hlt, Bool.false_and]

theorem atoi_utoa (n : Nat) (hn : n < 2 ^ 63) : atoi (utoa n) = .ok (n : Int) := by
  have hp := parseUint_utoa n (by omega)
  have hne := utoaAux_ne_nil n n
  have hdig := utoaAux_digits (n + 1) n
  unfold utoa at hp ⊢
  cases hl : utoaAux (n + 1) n with
  | nil => exact absurd hl hne
  | cons c cs =>
    rw [hl] at hp hdig
    exact atoi_unsigned c cs n (hdig c (by simp)) hp hn

theorem atoi_itoa (i : Int) (h1 : -2 ^ 63 ≤ i) (h2 : i < 2 ^ 63) : atoi (itoa i) = .ok i := by
  unfold itoa
  split
  · rename_i hneg
    have hp := parseUint_utoa i.natAbs (by omega)
    have hi : -(i.natAbs : Int) = i := by omega
    rw [atoi_minus _ _ hp (by omega), hi]
  · rename_i hpos
    have := atoi_utoa i.natAbs (by omega)
    rw [this]
    congr 1
    omega

/-! ## Lemmas on socket links -/

theorem contains_split (sub : GoString) :
    ∀ s, contains s sub = true → ∃ u v, s = u ++ sub ++ v := by
  intro s
  induction s with
  | nil =>
    intro h
    simp only [contains, List.isEmpty_eq_true] at h
    exact ⟨[], [], by simp [h]⟩
  | cons c cs ih =>
    intro h
    simp only [contains, Bool.or_eq_true] at h
    rcases h with h | h
    · simp only [hasPrefix, List.isPrefixOf_iff_prefix] at h
      obtain ⟨v, hv⟩ := h
      exact ⟨[], v, by simp [hv]⟩
    · obtain ⟨u, v, huv⟩ := ih h
      exact ⟨c :: u, v, by simp [huv]⟩

theorem trimPrefix_append (pre r : GoString) : trimPrefix (pre ++ r) pre = r := by
  have h : hasPrefix (pre ++ r) pre = true := by
    simp [hasPrefix, List.isPrefixOf_iff_prefix]
  simp [trimPrefix, h]

theorem trimSuffix_append (r suf : GoString) : trimSuffix (r ++ suf) suf = r := by
  have h : hasSuffix (r ++ suf) suf = true := by
    simp [hasSuffix, List.isSuffixOf_iff_suffix]
  simp [trimSuffix, h]

theorem trimSuffix_mem (s : GoString) (x y : Nat) (u w : GoString) (hs : s = u ++ x :: y :: w)
    (c : Nat) : x ∈ trimSuffix s [c] := by
  unfold trimSuffix
  split
  · have hlen : s.length - [c].length = (u ++ [x]).length + w.length := by
      simp [hs]
      omega
    have hs2 : s = (u ++ [x]) ++ (y :: w) := by simp [hs]
    rw [hlen, hs2, List.take_append]
    simp
  · simp [hs]

theorem atoi_not_closed (t : GoString) (n : Int) (h : atoi t = .ok n) :
    hasSuffix t [93] = false := by
  cases hsuf : hasSuffix t [93] with
  | false => rfl
  | true =>
    simp only [hasSuffix, List.isSuffixOf_iff_suffix] at hsuf
    obtain ⟨r, hr⟩ := hsuf
    have := (atoi_ok_chars t n h).2 93 (by simp [← hr])
    omega

theorem extractInodeFromLink_eq (s : GoString) (n : Int) :
    extractInodeFromLink s = .ok n ↔
      ∃ t, atoi t = .ok n ∧ (s = ascii "socket:[" ++ t ∨ s = ascii "socket:[" ++ t ++ ascii "]") := by
  rw [ascii_close]
  constructor
  · intro h
    unfold extractInodeFromLink at h
    rw [ascii_close] at h
    split at h
    · rename_i hcont
      simp only [] at h
      cases ha : atoi (trimSuffix (trimPrefix s (ascii "socket:[")) [93]) with
      | error e => rw [ha] at h; cases h
      | ok m =>
        rw [ha] at h
        simp only [Except.ok.injEq] at h
        subst h
        refine ⟨_, ha, ?_⟩
        by_cases hpre : hasPrefix s (ascii "socket:[") = true
        · have hp2 := hpre
          simp only [hasPrefix, List.isPrefixOf_iff_prefix] at hp2
          obtain ⟨r, hr⟩ := hp2
          subst hr
          rw [trimPrefix_append]
          by_cases hsuf : hasSuffix r [93] = true
          · have hs2 := hsuf
            simp only [hasSuffix, List.isSuffixOf_iff_suffix] at hs2
            obtain ⟨q, hq⟩ := hs2
            subst hq
            rw [trimSuffix_append]
            exact Or.inr (by simp)
          · simp [trimSuffix, hsuf]
        · exfalso
          have htp : trimPrefix s (ascii "socket:[") = s := by simp [trimPrefix, hpre]
          rw [htp] at ha
          obtain ⟨u, v, huv⟩ := contains_split _ s hcont
          rw [ascii_socket_colon] at huv
          have hmem : 115 ∈ trimSuffix s [93] :=
            trimSuffix_mem s 115 111 u ([99, 107, 101, 116, 58] ++ v) (by simp [huv]) 93
          have := (atoi_ok_chars _ _ ha).2 115 hmem
          omega
    · cases h
  · rintro ⟨t, ha, hs | hs⟩
    · have hcont : contains s (ascii "socket:") = true := by
        rw [hs, ascii_socket_open, ascii_socket_colon]
        simp [contains, hasPrefix, List.isPrefixOf]
      have hts : trimSuffix t [93] = t := by
        simp [trimSuffix, atoi_not_closed t n ha]
      unfold extractInodeFromLink
      rw [ascii_close]
      simp only [hcont, if_true]
      rw [hs, trimPrefix_append, hts, ha]
    · have hcont : contains s (ascii "socket:") = true := by
        rw [hs, ascii_socket_open, ascii_socket_colon]
        simp [contains, hasPrefix, List.isPrefixOf]
      unfold extractInodeFromLink
      rw [ascii_close]
      simp only [hcont, if_true]
      rw [hs, List.append_assoc, trimPrefix_append, trimSuffix_append, ha]

theorem extractInodeFromLink_socketLink (n : Int) (h1 : -2 ^ 63 ≤ n) (h2 : n < 2 ^ 63) :
    extractInodeFromLink (socketLink n) = .ok n :=
  (extractInodeFromLink_eq _ n).2 ⟨itoa n, atoi_itoa n h1 h2, Or.inr rfl⟩

/-! ## Claims on socket links -/

/-- C8, as stated, fails: the link targets `socket:[12` and `socket:[+12]` are
not of the form `socket:[12]`, yet `extractInodeFromLink` succeeds on both with
inode 12, and `getPidFromInode` reports the process holding such a descriptor
as the owner of inode 12. -/
theorem extractInodeFromLink_accepts_other_forms :
    extractInodeFromLink (ascii "socket:[12") = .ok 12 ∧
      extractInodeFromLink (ascii "socket:[+12]") = .ok 12 ∧
      socketLink 12 = ascii "socket:[12]" ∧
      ascii "socket:[12" ≠ socketLink 12 ∧ ascii "socket:[+12]" ≠ socketLink 12 ∧
      (getPidFromInode (.ok [⟨ascii "7", some [⟨ascii "3", some (ascii "socket:[12")⟩]⟩]) 12).1 =
        .ok 7 := by
  decide

/-- C8, amended: `extractInodeFromLink(s)` succeeds with inode `n` exactly when
`s` is `socket:[` followed by a text that `strconv.Atoi` reads as `n` (an
optional sign and decimal digits) and then by at most one `]`; the form
`socket:[<n>]` is among these for every `n` of type `int`.  Every other target
yields an error, and a descriptor whose target yields an error is passed over
by `getPidFromInode`: the scan of the descriptors finds what it finds without
that entry. -/
theorem extractInodeFromLink_accepts (s : GoString) (n : Int) :
    (extractInodeFromLink s = .ok n ↔
      ∃ t, atoi t = .ok n ∧
        (s = ascii "socket:[" ++ t ∨ s = ascii "socket:[" ++ t ++ ascii "]")) ∧
    (-2 ^ 63 ≤ n → n < 2 ^ 63 → extractInodeFromLink (socketLink n) = .ok n) ∧
    (∀ e inode procName fdName rest, extractInodeFromLink s = .error e →
      (scanFdFiles inode procName (⟨fdName, some s⟩ :: rest)).1 =
        (scanFdFiles inode procName rest).1) := by
  refine ⟨extractInodeFromLink_eq s n, extractInodeFromLink_socketLink n, ?_⟩
  intro e inode procName fdName rest he
  simp only [scanFdFiles, he]

/-- C8, amended, at the inode 34567 and at the target `/dev/null`. -/
theorem extractInodeFromLink_accepts_witness :
    extractInodeFromLink (socketLink 34567) = .ok 34567 ∧
      (scanFdFiles 34567 (ascii "12") (⟨ascii "0", some (ascii "/dev/null")⟩ :: [])).1 =
        (scanFdFiles 34567 (ascii "12") []).1 :=
  ⟨(extractInodeFromLink_accepts (ascii "/dev/null") 34567).2.1 (by decide) (by decide),
    (extractInodeFromLink_accepts (ascii "/dev/null") 34567).2.2
      (.errorf .invalidSocketLink) 34567 (ascii "12") (ascii "0") [] (by decide)⟩

/-! ## Claims on the process scan -/

theorem scanFdFiles_fst (inode : Int) (procName : GoString) (fds : List FdEntry) :
    (scanFdFiles inode procName fds).1 = fds.any (holdsInode inode) := by
  induction fds with
  | nil => rfl
  | cons fd rest ih =>
    simp only [scanFdFiles, List.any_cons, holdsInode]
    split
    · simpa using ih
    · split
      · rename_i he
        simpa [he] using ih
      · rename_i socketInode he
        split
        · rename_i heq
          simp [he, heq]
        · rename_i hne
          simpa [he, hne] using ih

theorem scanProcFiles_fst (inode : Int) (procs : List ProcEntry) :
    (scanProcFiles inode procs).1 =
      match procs.find? (owns inode) with
      | none => none
      | some e =>
        match atoi e.name with
        | .ok pid => some pid
        | .error _ => none := by
  induction procs with
  | nil => rfl
  | cons file rest ih =>
    simp only [scanProcFiles, List.find?_cons, owns, numericName]
    cases ha : atoi file.name with
    | error e => simpa [owns, numericName] using ih
    | ok pid =>
      cases hf : file.fds with
      | none => simpa [owns, numericName] using ih
      | some fdFiles =>
        simp only [scanFdFiles_fst, Bool.true_and]
        cases hany : fdFiles.any (holdsInode inode) with
        | true => simp [ha]
        | false => simpa [owns, numericName] using ih

theorem owns_of_ownsCanonical (inode : Int) (e : ProcEntry) (h1 : -2 ^ 63 ≤ inode)
    (h2 : inode < 2 ^ 63) (h : ownsCanonical inode e = true) : owns inode e = true := by
  unfold ownsCanonical at h
  unfold owns
  simp only [Bool.and_eq_true] at h ⊢
  refine ⟨h.1, ?_⟩
  cases hf : e.fds with
  | none => simp [hf] at h
  | some fds =>
    have h3 := h.2
    simp only [hf, List.any_eq_true, decide_eq_true_eq] at h3 ⊢
    obtain ⟨fd, hfd, hlink⟩ := h3
    refine ⟨fd, hfd, ?_⟩
    simp [holdsInode, hlink, extractInodeFromLink_socketLink inode h1 h2]

theorem skipped_of_wellFormedRow (p : Nat) (r : GoString) (hwf : wellFormedRow r = true)
    (hne : (decodedPort r == some p) = false) : skipped p r = true := by
  unfold wellFormedRow at hwf
  simp only [Bool.and_eq_true] at hwf
  have h1 := hwf.1
  unfold decodedPort at h1 hne
  unfold skipped
  cases hpf : portField r with
  | none => simp [hpf] at h1
  | some portStr =>
    simp only [hpf] at h1 hne ⊢
    cases hq : parseUint portStr 16 16 with
    | error e => simp
    | ok v =>
      simp only [hq, beq_eq_false_iff_ne, ne_eq, Option.some.injEq] at hne
      simpa using hne

/-- C2, as stated, fails: the table's one row is well formed and carries port
8080 and inode 34567; process 2 is the first process with a descriptor whose
link target is `socket:[34567]`; yet `getPidFromPort(8080)` returns PID 1,
whose descriptor's link target is `socket:[+34567]`. -/
theorem getPidFromPort_returns_earlier_loose_match :
    (∀ r ∈ ([tcpHeader, row8080] : List GoString).drop 1, wellFormedRow r = true) ∧
      (([tcpHeader, row8080] : List GoString).drop 1).find? (fun r => decodedPort r == some 8080)
        = some row8080 ∧
      rowInode row8080 = some 34567 ∧
      procListingTwo.find? (ownsCanonical 34567) =
        some ⟨ascii "2", some [⟨ascii "5", some (ascii "socket:[34567]")⟩]⟩ ∧
      (getPidFromPort ⟨.ok [tcpHeader, row8080], .ok procListingTwo⟩ 8080).1 =
        .returned 1 none := by
  decide

/-- C2, amended: for every port `p`, every table whose rows after the header
are all well formed and whose first row decoding to `p` carries the inode `I`,
and every listing of `/proc` in which a numerically named process has a
readable descriptor with the link target `socket:[I]`, `getPidFromPort(p)`
succeeds and returns, converted to `uint32`, the PID of the first entry in
enumeration order that has a numeric name, a readable descriptor directory
and a readable descriptor from whose target `extractInodeFromLink` reads `I`
(the target `socket:[I]`, or another spelling it accepts); entries with a
non-numeric name or an unreadable directory, and unreadable links, are
passed over.  A PID in the range of `uint32` is returned unchanged. -/
theorem getPidFromPort_finds_owner (sys : Sys) (p : Nat) (lines : List GoString)
    (row : GoString) (I : Int) (procs : List ProcEntry)
    (hopen : sys.tcp = .ok lines)
    (hwf : ∀ r ∈ lines.drop 1, wellFormedRow r = true)
    (hfirst : (lines.drop 1).find? (fun r => decodedPort r == some p) = some row)
    (hino : rowInode row = some I)
    (hproc : sys.proc = .ok procs)
    (hown : ∃ e ∈ procs, ownsCanonical I e = true) :
    ∃ e pid, procs.find? (owns I) = some e ∧ atoi e.name = .ok pid ∧
      (getPidFromPort sys p).1 = .returned (toUint32 pid) none ∧
      (0 ≤ pid → pid < 2 ^ 32 → (toUint32 pid : Int) = pid) := by
  obtain ⟨hmatch, pre, post, hsplit, hpre⟩ := List.find?_eq_some.1 hfirst
  have hrow : decodedPort row = some p := by simpa using hmatch
  -- the inode field of the matching row
  unfold rowInode at hino
  cases hf : (fields row)[9]? with
  | none => simp [hf] at hino
  | some inodeField =>
    simp only [hf] at hino
    cases ha : atoi inodeField with
    | error e => simp [ha] at hino
    | ok inode =>
      simp only [ha, Option.some.injEq] at hino
      subst hino
      have hrange := atoi_range _ _ ha
      -- the first owner
      obtain ⟨e0, he0, hcan⟩ := hown
      have hsome : (procs.find? (owns inode)).isSome = true :=
        List.find?_isSome.2 ⟨e0, he0, owns_of_ownsCanonical inode e0 hrange.1 hrange.2 hcan⟩
      cases hfind : procs.find? (owns inode) with
      | none => simp [hfind] at hsome
      | some e =>
        have hownse : owns inode e = true := List.find?_some hfind
        have hnum : numericName e = true := by
          unfold owns at hownse
          simp only [Bool.and_eq_true] at hownse
          exact hownse.1
        unfold numericName at hnum
        cases hpid : atoi e.name with
        | error err => simp [hpid] at hnum
        | ok pid =>
          refine ⟨e, pid, rfl, hpid, ?_, ?_⟩
          · have hskip := (scanTcpLines_skip_all sys.proc p pre (row :: post)
              (fun r hr => Skipped_of_skipped p r
                (skipped_of_wellFormedRow p r (hwf r (by rw [hsplit]; simp [hr]))
                  (by simpa using hpre r hr)))).1
            have hscan : (scanProcFiles inode procs).1 = some pid := by
              rw [scanProcFiles_fst, hfind]
              simp only [hpid]
            simp only [getPidFromPort, hopen, hsplit]
            rw [hskip, scanTcpLines_match sys.proc p row post inodeField hrow hf]
            simp only [ha, hproc, getPidFromInode, hscan]
          · intro h0 h1
            unfold toUint32
            rw [Int.emod_eq_of_lt h0 h1]
            exact Int.toNat_of_nonneg h0

/-- C2, amended, at the table with the row for port 8080 after a row for port
22 and the listing in which process 12 holds `socket:[34567]`: the call
returns PID 12. -/
theorem getPidFromPort_finds_owner_witness :
    (getPidFromPort ⟨.ok [tcpHeader, row22, row8080], .ok procListing⟩ 8080).1 =
      .returned 12 none := by
  obtain ⟨e, pid, hfind, hpid, hout, -⟩ :=
    getPidFromPort_finds_owner ⟨.ok [tcpHeader, row22, row8080], .ok procListing⟩ 8080
      [tcpHeader, row22, row8080] row8080 34567 procListing rfl (by decide) (by decide)
      (by decide) rfl ⟨⟨ascii "12", some [⟨ascii "0", some (ascii "/dev/null")⟩,
        ⟨ascii "3", some (ascii "socket:[34567]")⟩]⟩, by decide, by decide⟩
  have he : procListing.find? (owns 34567) =
      some ⟨ascii "12", some [⟨ascii "0", some (ascii "/dev/null")⟩,
        ⟨ascii "3", some (ascii "socket:[34567]")⟩]⟩ := by decide
  rw [he] at hfind
  cases hfind
  have hp : atoi (ascii "12") = .ok 12 := by decide
  rw [hp] at hpid
  cases hpid
  exact hout

end EbpfTunnel
